import Mathlib

/-!
Verification of the invoice-parsing pipeline (`parse_invoices.py` /
`parse_invoices3.py`).  The Python source is shallowly embedded: strings
become `List Char`, the specific regular expressions used by the scripts
become explicit deterministic scanners (each regex in the source is simple
enough that its backtracking behaviour is fully determined, as argued in
the comments near each scanner), Python `int` quantities become `Nat`,
floats that only ever hold exact small values become `ℚ`, and `None`
becomes `Option`.  The two script variants share their GL-classification
logic verbatim; both are transcribed.  External capabilities (PyPDF2 /
pdfplumber text extraction, pandas Excel I/O, pandas `to_datetime` and
`strftime`) are treated as boundaries: texts, chart-of-accounts rows and
date conversion functions are parameters of the embedded pipeline.
-/

namespace Invoice

/-- Strings are modelled as lists of characters. -/
abbrev Str := List Char

/-- Python `\s` (whitespace class), restricted to the ASCII whitespace
characters Python's `re` recognises: space, tab, newline, carriage
return, vertical tab, form feed. -/
def isSpace (c : Char) : Bool :=
  c = ' ' || c = '\t' || c = '\n' || c = '\r' || c = '\x0b' || c = '\x0c'

/-- Python `\d`, ASCII digits. -/
def isDigit (c : Char) : Bool := c.isDigit

/-- The character class `[0-9A-Z]` from the invoice-number group. -/
def isInvChar (c : Char) : Bool := c.isDigit || c.isUpper

/-- ASCII lower-casing, modelling Python `str.lower()` on the ASCII
texts this pipeline handles. -/
def lowerStr (s : Str) : Str := s.map Char.toLower

/-- Python `str.strip()`: remove leading and trailing whitespace. -/
def strip (s : Str) : Str :=
  ((s.dropWhile isSpace).reverse.dropWhile isSpace).reverse

/-- `startsWith pat s` holds when `pat` is a leading segment of `s`
(the anchored literal part of a regex match). -/
def startsWith : Str → Str → Bool
  | [], _ => true
  | _ :: _, [] => false
  | a :: as, b :: bs => a = b && startsWith as bs

/-- Case-insensitive variant of `startsWith` (regexes compiled with
`re.I`). -/
def startsWithCI : Str → Str → Bool
  | [], _ => true
  | _ :: _, [] => false
  | a :: as, b :: bs => a.toLower = b.toLower && startsWithCI as bs

/-- Python `needle in hay` substring test. -/
def containsSub (needle : Str) : Str → Bool
  | [] => needle.isEmpty
  | c :: cs => startsWith needle (c :: cs) || containsSub needle cs

/-- Case-insensitive substring search, modelling
`re.search(lit, s, re.I)` for a literal pattern `lit`. -/
def containsSubCI (needle : Str) : Str → Bool
  | [] => needle.isEmpty
  | c :: cs => startsWithCI needle (c :: cs) || containsSubCI needle cs

/-- Drop a literal prefix, returning the remainder on success. -/
def dropStart? : Str → Str → Option Str
  | [], s => some s
  | _ :: _, [] => none
  | a :: as, b :: bs => if a = b then dropStart? as bs else none

/-- Case-insensitive `dropStart?`. -/
def dropStartCI? : Str → Str → Option Str
  | [], s => some s
  | _ :: _, [] => none
  | a :: as, b :: bs => if a.toLower = b.toLower then dropStartCI? as bs else none

/-- Greedy `\s*`. -/
def dropSpaces (s : Str) : Str := s.dropWhile isSpace

/-- Python `int` on a string of ASCII digits. -/
def natOfDigits (s : Str) : Nat :=
  s.foldl (fun n c => n * 10 + (c.toNat - 48)) 0

/-! ## GL index (`build_gl_index`, identical in both scripts)

The pandas part (`gl_df[["Number","Account (invoices)"]].dropna()`,
`astype(str)`) is the external tabular-read boundary; the embedded
function receives the resulting rows, each holding the `Number` and
`Account (invoices)` cells as strings. -/

/-- One surviving row of the chart-of-accounts table after `dropna` and
`astype(str)`. -/
structure GLRow where
  number : Str
  account : Str
deriving DecidableEq, Repr

/-- Python `dict.setdefault k v` on an association list whose keys are
unique: insert only when the key is absent. -/
def setdefault (m : List (Str × Str)) (k v : Str) : List (Str × Str) :=
  if (m.lookup k).isSome then m else m ++ [(k, v)]

/-- `kw_map.get(key, default)`: the keyword maps built by `setdefault`
have unique keys, so first-match lookup is dictionary lookup. -/
def kwGet (m : List (Str × Str)) (k dflt : Str) : Str :=
  (m.lookup k).getD dflt

/-- `acct_by_name.get(key, default)`.  The dict comprehension
`{a: n for a, n in zip(...)}` lets later rows overwrite earlier ones,
so lookup proceeds from the most recently inserted pair. -/
def dictGet (m : List (Str × Str)) (k dflt : Str) : Str :=
  (m.reverse.lookup k).getD dflt

/-- The keyword-scan body of `build_gl_index` for one chart row
(`parse_invoices.py` lines 118-127). -/
def kwScanRow (m : List (Str × Str)) (r : GLRow) : List (Str × Str) :=
  let acct := lowerStr r.account
  let num := strip r.number
  let m := if containsSub "sample".data acct then setdefault m "sample".data num else m
  let m := if containsSub "free".data acct then setdefault m "free goods".data num else m
  let m := if containsSub "advertis".data acct || containsSub "pos".data acct
              || containsSub "marketing".data acct
           then setdefault m "advertising".data num else m
  let m := if containsSub "rebate".data acct then setdefault m "rebate".data num else m
  let m := if containsSub "invasion fee".data acct || containsSub "slotting".data acct
           then setdefault m "invasion".data num else m
  let m := if containsSub "allowance".data acct || containsSub "discount".data acct
              || containsSub "off invoice".data acct
           then setdefault m "allowance".data num else m
  let m := if containsSub "incentive".data acct then setdefault m "incentive".data num else m
  m

/-- `build_gl_index` from `parse_invoices.py` (lines 110-128): the
account-description list, the description→number dictionary, and the
keyword→number shortcut table. -/
def build_gl_index (rows : List GLRow) :
    List Str × List (Str × Str) × List (Str × Str) :=
  (rows.map (·.account),
   rows.map (fun r => (r.account, r.number)),
   rows.foldl kwScanRow [])

/-- `build_gl_index` from `parse_invoices3.py` (lines 104-120); the
source text of the function is identical to the first variant's. -/
def build_gl_index3 (rows : List GLRow) :
    List Str × List (Str × Str) × List (Str × Str) :=
  (rows.map (·.account),
   rows.map (fun r => (r.account, r.number)),
   rows.foldl kwScanRow [])

/-! ## Fuzzy matching (`difflib.get_close_matches`, n = 1)

`difflib` is a Python standard-library boundary.  Its selection logic is
embedded; the similarity measure `SequenceMatcher.ratio` is kept
abstract (a parameter `sim : Str → Str → ℚ`, applied as
`sim candidate word` matching `set_seq1(x)` / `set_seq2(word)`), exactly
as the spec's design note asks ("a pluggable string-similarity
capability").  `real_quick_ratio` and `quick_ratio` are documented upper
bounds of `ratio`, so the three-fold cutoff test in `get_close_matches`
is equivalent to `cutoff ≤ ratio`. -/

/-- Python `<` on similarity-score/string pairs (tuple comparison,
strings by code point). -/
def strLtB : Str → Str → Bool
  | [], [] => false
  | [], _ :: _ => true
  | _ :: _, [] => false
  | a :: as, b :: bs => if a < b then true else if b < a then false else strLtB as bs

/-- Python tuple `<` on `(score, string)` pairs. -/
def pairLtB (p q : ℚ × Str) : Bool :=
  if p.1 < q.1 then true else if q.1 < p.1 then false else strLtB p.2 q.2

/-- One step of the running-maximum fold behind `heapq.nlargest(1, ·)`. -/
def bestStep (acc : Option (ℚ × Str)) (p : ℚ × Str) : Option (ℚ × Str) :=
  match acc with
  | none => some p
  | some a => if pairLtB a p then some p else some a

/-- `heapq.nlargest(1, l)` as an option: the maximum of `l` under the
tuple order, if any. -/
def best1 (l : List (ℚ × Str)) : Option (ℚ × Str) :=
  l.foldl bestStep none

/-- `difflib.get_close_matches(word, poss, n=1, cutoff)`, returning the
single best scorer clearing the cutoff (if any). -/
def getCloseMatches1 (sim : Str → Str → ℚ) (word : Str) (poss : List Str)
    (cutoff : ℚ) : Option Str :=
  (best1 (((poss.map (fun x => (sim x word, x))).filter
      (fun p => cutoff ≤ p.1)))).map Prod.snd

/-! ## GL classifier (`gl_map_for_description`) -/

/-- The sentinel GL code. -/
def unmappedS : Str := "Unmapped".data

/-- Keyword rule 2 (sample / free goods). -/
def ruleSample (d : Str) : Bool :=
  (["free goods", "no charge", "sample", "samples", "donation"].map String.data).any
    (fun w => containsSub w d)

/-- Keyword rule 3 (advertising). -/
def ruleAdvertising (d : Str) : Bool :=
  containsSub "advertis".data d || containsSub "promo".data d ||
  containsSub "pos".data d || containsSub "display".data d

/-- Keyword rule 4 (rebate). -/
def ruleRebate (d : Str) : Bool := containsSub "rebate".data d

/-- Keyword rule 5 (invasion / slotting). -/
def ruleInvasion (d : Str) : Bool :=
  containsSub "slotting".data d || containsSub "invasion".data d

/-- Keyword rule 6 (allowance). -/
def ruleAllowance (d : Str) : Bool :=
  containsSub "allowance".data d || containsSub "discount".data d ||
  containsSub "off invoice".data d

/-- Keyword rule 7 (incentive). -/
def ruleIncentive (d : Str) : Bool := containsSub "incentive".data d

/-- `gl_map_for_description` from `parse_invoices.py` (lines 130-149),
with the similarity measure of `difflib` abstracted as `sim`. -/
def gl_map_for_description (sim : Str → Str → ℚ) (desc : Str)
    (acct_list : List Str) (acct_by_name kw_map : List (Str × Str)) : Str :=
  if desc.isEmpty then unmappedS else
  let d := lowerStr desc
  if ruleSample d then kwGet kw_map "sample".data unmappedS
  else if ruleAdvertising d then kwGet kw_map "advertising".data unmappedS
  else if ruleRebate d then kwGet kw_map "rebate".data unmappedS
  else if ruleInvasion d then kwGet kw_map "invasion".data unmappedS
  else if ruleAllowance d then kwGet kw_map "allowance".data unmappedS
  else if ruleIncentive d then kwGet kw_map "incentive".data unmappedS
  else match getCloseMatches1 sim desc acct_list (0.86 : ℚ) with
    | some m => dictGet acct_by_name m unmappedS
    | none => unmappedS

/-- `gl_map_for_description` from `parse_invoices3.py` (lines 122-133);
the source text is identical to the first variant's apart from
layout. -/
def gl_map_for_description3 (sim : Str → Str → ℚ) (desc : Str)
    (acct_list : List Str) (acct_by_name kw_map : List (Str × Str)) : Str :=
  if desc.isEmpty then unmappedS else
  let d := lowerStr desc
  if ruleSample d then kwGet kw_map "sample".data unmappedS
  else if ruleAdvertising d then kwGet kw_map "advertising".data unmappedS
  else if ruleRebate d then kwGet kw_map "rebate".data unmappedS
  else if ruleInvasion d then kwGet kw_map "invasion".data unmappedS
  else if ruleAllowance d then kwGet kw_map "allowance".data unmappedS
  else if ruleIncentive d then kwGet kw_map "incentive".data unmappedS
  else match getCloseMatches1 sim desc acct_list (0.86 : ℚ) with
    | some m => dictGet acct_by_name m unmappedS
    | none => unmappedS

/-- Spec-side restatement of §4.4's rule order: the first keyword rule
(in the stated order) matching a lowered description, as the keyword
category it maps through. -/
def matchedRule (d : Str) : Option Str :=
  if ruleSample d then some "sample".data
  else if ruleAdvertising d then some "advertising".data
  else if ruleRebate d then some "rebate".data
  else if ruleInvasion d then some "invasion".data
  else if ruleAllowance d then some "allowance".data
  else if ruleIncentive d then some "incentive".data
  else none

/-! ### Order lemmas for the tuple comparison used by `nlargest` -/

theorem strLtB_irrefl (s : Str) : strLtB s s = false := by
  induction s with
  | nil => rfl
  | cons a as ih => simp [strLtB, ih]

theorem strLtB_cons_iff (a b : Char) (as bs : Str) :
    strLtB (a :: as) (b :: bs) = true ↔ a < b ∨ (a = b ∧ strLtB as bs = true) := by
  simp only [strLtB]
  split_ifs with hab hba
  · simp [hab]
  · simp only [false_iff]
    rintro (hc | ⟨rfl, -⟩)
    · exact hab hc
    · exact lt_irrefl a hba
  · have hab' : a = b := le_antisymm (not_lt.mp hba) (not_lt.mp hab)
    subst hab'
    simp [lt_irrefl]

theorem strLtB_connex : ∀ {a b : Str}, strLtB a b = false → strLtB b a = false → a = b
  | [], [], _, _ => rfl
  | [], _ :: _, h, _ => by simp [strLtB] at h
  | _ :: _, [], _, h => by simp [strLtB] at h
  | a :: as, b :: bs, h1, h2 => by
    rw [Bool.eq_false_iff, Ne, strLtB_cons_iff] at h1 h2
    push_neg at h1 h2
    have hab : a = b := by
      rcases lt_trichotomy a b with h | h | h
      · exact absurd h (not_lt.mpr h1.1)
      · exact h
      · exact absurd h (not_lt.mpr h2.1)
    subst hab
    rw [strLtB_connex (Bool.eq_false_iff.mpr (h1.2 rfl)) (Bool.eq_false_iff.mpr (h2.2 rfl))]

theorem strLtB_trans : ∀ {a b c : Str}, strLtB a b = true → strLtB b c = true →
    strLtB a c = true
  | [], [], _, h1, _ => by simp [strLtB] at h1
  | _ :: _, [], _, h1, _ => by simp [strLtB] at h1
  | [], _ :: _, [], _, h2 => by simp [strLtB] at h2
  | _ :: _, _ :: _, [], _, h2 => by simp [strLtB] at h2
  | [], _ :: _, _ :: _, _, _ => by simp [strLtB]
  | a :: as, b :: bs, c :: cs, h1, h2 => by
    rw [strLtB_cons_iff] at h1 h2 ⊢
    rcases h1 with h1 | ⟨rfl, h1⟩
    · rcases h2 with h2 | ⟨rfl, h2⟩
      · exact Or.inl (lt_trans h1 h2)
      · exact Or.inl h1
    · rcases h2 with h2 | ⟨rfl, h2⟩
      · exact Or.inl h2
      · exact Or.inr ⟨rfl, strLtB_trans h1 h2⟩

theorem pairLtB_iff (x y : ℚ) (s t : Str) :
    pairLtB (x, s) (y, t) = true ↔ x < y ∨ (x = y ∧ strLtB s t = true) := by
  simp only [pairLtB]
  split_ifs with hxy hyx
  · simp [hxy]
  · simp only [false_iff]
    rintro (hc | ⟨rfl, -⟩)
    · exact hxy hc
    · exact lt_irrefl x hyx
  · have hxyeq : x = y := le_antisymm (not_lt.mp hyx) (not_lt.mp hxy)
    simp [hxyeq]

theorem pairLtB_irrefl (p : ℚ × Str) : pairLtB p p = false := by
  rcases p with ⟨x, s⟩
  simp [pairLtB, strLtB_irrefl]

theorem pairLtB_connex {p q : ℚ × Str} (h1 : pairLtB p q = false)
    (h2 : pairLtB q p = false) : p = q := by
  rcases p with ⟨x, s⟩; rcases q with ⟨y, t⟩
  rw [Bool.eq_false_iff, Ne, pairLtB_iff] at h1 h2
  push_neg at h1 h2
  have hxy : x = y := by
    rcases lt_trichotomy x y with h | h | h
    · exact absurd h (not_lt.mpr h1.1)
    · exact h
    · exact absurd h (not_lt.mpr h2.1)
  subst hxy
  rw [strLtB_connex (Bool.eq_false_iff.mpr (h1.2 rfl)) (Bool.eq_false_iff.mpr (h2.2 rfl))]

theorem pairLtB_trans {p q r : ℚ × Str} (h1 : pairLtB p q = true)
    (h2 : pairLtB q r = true) : pairLtB p r = true := by
  rcases p with ⟨x, s⟩; rcases q with ⟨y, t⟩; rcases r with ⟨z, u⟩
  rw [pairLtB_iff] at h1 h2 ⊢
  rcases h1 with h1 | ⟨rfl, h1⟩
  · rcases h2 with h2 | ⟨rfl, h2⟩
    · exact Or.inl (lt_trans h1 h2)
    · exact Or.inl h1
  · rcases h2 with h2 | ⟨rfl, h2⟩
    · exact Or.inl h2
    · exact Or.inr ⟨rfl, strLtB_trans h1 h2⟩

/-- `≥`-transitivity written on the boolean strict order: if `m` is not
below `a` and `a` is not below `p` then `m` is not below `p`. -/
theorem pairLtB_false_trans {m a p : ℚ × Str} (h1 : pairLtB m a = false)
    (h2 : pairLtB a p = false) : pairLtB m p = false := by
  cases hmp : pairLtB m p with
  | false => rfl
  | true =>
    cases hpa : pairLtB p a with
    | true => exact absurd (pairLtB_trans hmp hpa) (Bool.eq_false_iff.mp h1 ∘ id)
    | false =>
      have : a = p := pairLtB_connex h2 hpa
      subst this
      exact absurd hmp (Bool.eq_false_iff.mp h1 ∘ id)

/-- If `a` is strictly below `p` and `m` is not below `p`, then `m` is
not below `a`. -/
theorem pairLtB_false_of_lt {a p m : ℚ × Str} (hap : pairLtB a p = true)
    (hmp : pairLtB m p = false) : pairLtB m a = false := by
  cases hma : pairLtB m a with
  | false => rfl
  | true => exact absurd (pairLtB_trans hma hap) (Bool.eq_false_iff.mp hmp ∘ id)

/-- The running-maximum fold, started at `a`, returns a maximum of
`a :: l` under the tuple order. -/
theorem bestStep_go : ∀ (l : List (ℚ × Str)) (a : ℚ × Str),
    ∃ m, l.foldl bestStep (some a) = some m ∧ (m = a ∨ m ∈ l) ∧
      pairLtB m a = false ∧ ∀ y ∈ l, pairLtB m y = false
  | [], a => ⟨a, rfl, Or.inl rfl, pairLtB_irrefl a, by simp⟩
  | p :: t, a => by
    by_cases h : pairLtB a p = true
    · obtain ⟨m, hm, hmem, hmp, hall⟩ := bestStep_go t p
      refine ⟨m, ?_, ?_, pairLtB_false_of_lt h hmp, ?_⟩
      · simpa [bestStep, h] using hm
      · rcases hmem with rfl | hmem
        · exact Or.inr (List.mem_cons_self _ _)
        · exact Or.inr (List.mem_cons_of_mem _ hmem)
      · intro y hy
        rcases List.mem_cons.mp hy with rfl | hy
        · exact hmp
        · exact hall y hy
    · have h' : pairLtB a p = false := (Bool.not_eq_true _).mp h
      obtain ⟨m, hm, hmem, hma, hall⟩ := bestStep_go t a
      refine ⟨m, ?_, ?_, hma, ?_⟩
      · simpa [bestStep, h'] using hm
      · rcases hmem with rfl | hmem
        · exact Or.inl rfl
        · exact Or.inr (List.mem_cons_of_mem _ hmem)
      · intro y hy
        rcases List.mem_cons.mp hy with rfl | hy
        · exact pairLtB_false_trans hma h'
        · exact hall y hy

/-- `nlargest(1, ·)` on a non-empty list returns a member that is
maximal under the tuple order. -/
theorem best1_spec {l : List (ℚ × Str)} (hl : l ≠ []) :
    ∃ m, best1 l = some m ∧ m ∈ l ∧ ∀ y ∈ l, pairLtB m y = false := by
  cases l with
  | nil => exact absurd rfl hl
  | cons p t =>
    obtain ⟨m, hm, hmem, hmp, hall⟩ := bestStep_go t p
    refine ⟨m, ?_, ?_, ?_⟩
    · simpa [best1, bestStep] using hm
    · rcases hmem with rfl | hmem
      · exact List.mem_cons_self _ _
      · exact List.mem_cons_of_mem _ hmem
    · intro y hy
      rcases List.mem_cons.mp hy with rfl | hy
      · exact hmp
      · exact hall y hy

/-- Unfolding of the GL classifier: `gl_map_for_description` on a
non-empty description is the first matching keyword rule's lookup, and
falls through to the fuzzy matcher only when no rule matches.  This is
the shared workhorse behind the rule-precedence theorems. -/
theorem gl_map_eq_cases (sim : Str → Str → ℚ) (desc : Str) (al : List Str)
    (abn km : List (Str × Str)) (hne : desc.isEmpty = false) :
    gl_map_for_description sim desc al abn km =
      match matchedRule (lowerStr desc) with
      | some cat => kwGet km cat unmappedS
      | none =>
        match getCloseMatches1 sim desc al (0.86 : ℚ) with
        | some m => dictGet abn m unmappedS
        | none => unmappedS := by
  simp only [gl_map_for_description, matchedRule, hne, Bool.false_eq_true, if_false]
  split_ifs <;> rfl

/-- A description matching some keyword rule is non-empty. -/
theorem matchedRule_ne_nil {desc : Str} {cat : Str}
    (h : matchedRule (lowerStr desc) = some cat) : desc.isEmpty = false := by
  cases desc with
  | nil => rw [show matchedRule (lowerStr []) = none from rfl] at h; cases h
  | cons a l => rfl

/-- C3: the GL Classifier applies its rules in the stated order with
absolute precedence — an empty description yields "Unmapped"
immediately, and a description matching a keyword rule yields that
rule's keyword-table lookup, with a result that is independent of the
fuzzy-matching similarity function and of the account list and
description→number map (so fuzzy matching is never consulted). -/
theorem gl_classifier_rule_precedence (sim sim' : Str → Str → ℚ)
    (al al' : List Str) (abn abn' km : List (Str × Str)) (desc cat : Str) :
    (desc = [] → gl_map_for_description sim desc al abn km = unmappedS)
  ∧ (matchedRule (lowerStr desc) = some cat →
      gl_map_for_description sim desc al abn km = kwGet km cat unmappedS ∧
      gl_map_for_description sim desc al abn km =
        gl_map_for_description sim' desc al' abn' km) := by
  constructor
  · rintro rfl; rfl
  · intro h
    have hne := matchedRule_ne_nil h
    rw [gl_map_eq_cases sim desc al abn km hne,
        gl_map_eq_cases sim' desc al' abn' km hne, h]
    exact ⟨rfl, rfl⟩

/-- Similarity functions used to instantiate the witnesses: exact-match
similarity and two constant measures. -/
def simExact : Str → Str → ℚ := fun a b => if a = b then 1 else 0

def simZero : Str → Str → ℚ := fun _ _ => 0

def simOne : Str → Str → ℚ := fun _ _ => 1

/-- Witness for C3 at the description "No Charge Item" (sample rule). -/
theorem gl_classifier_rule_precedence_witness :
    gl_map_for_description simZero "No Charge Item".data [] []
        [("sample".data, "6000".data)] =
      kwGet [("sample".data, "6000".data)] "sample".data unmappedS ∧
    gl_map_for_description simZero "No Charge Item".data [] []
        [("sample".data, "6000".data)] =
      gl_map_for_description simOne "No Charge Item".data ["zzz".data]
        [("zzz".data, "1".data)] [("sample".data, "6000".data)] :=
  (gl_classifier_rule_precedence simZero simOne [] ["zzz".data] []
    [("zzz".data, "1".data)] [("sample".data, "6000".data)]
    "No Charge Item".data "sample".data).2 (by decide)

/-- C7: when the matched keyword rule's category is absent from the
keyword table (no chart-of-accounts row produced it), the classifier
returns "Unmapped" instead of failing. -/
theorem gl_classifier_missing_category (sim : Str → Str → ℚ) (al : List Str)
    (abn km : List (Str × Str)) (desc cat : Str)
    (hm : matchedRule (lowerStr desc) = some cat)
    (habs : km.lookup cat = none) :
    gl_map_for_description sim desc al abn km = unmappedS := by
  rw [gl_map_eq_cases sim desc al abn km (matchedRule_ne_nil hm), hm]
  simp [kwGet, habs]

/-- Witness for C7: a rebate description against an empty keyword
table. -/
theorem gl_classifier_missing_category_witness :
    gl_map_for_description simZero "Rebate 2024".data ["Rebate 2024".data]
      [("Rebate 2024".data, "7000".data)] [] = unmappedS :=
  gl_classifier_missing_category simZero ["Rebate 2024".data]
    [("Rebate 2024".data, "7000".data)] [] "Rebate 2024".data "rebate".data
    (by decide) (by decide)

/-- C5: when no keyword rule matches a non-empty description, the
classifier fuzzy-matches against the account list with cutoff 0.86:
if every candidate scores below the cutoff the result is "Unmapped",
and if some member of the list clears the cutoff and is maximal under
`nlargest`'s tuple order then the result is that best match's mapped
account number. -/
theorem gl_classifier_fuzzy (sim : Str → Str → ℚ) (desc : Str) (al : List Str)
    (abn km : List (Str × Str)) (hne : desc.isEmpty = false)
    (hkw : matchedRule (lowerStr desc) = none) :
    ((∀ x ∈ al, sim x desc < (0.86 : ℚ)) →
        gl_map_for_description sim desc al abn km = unmappedS)
  ∧ (∀ best ∈ al, (0.86 : ℚ) ≤ sim best desc →
      (∀ y ∈ al, pairLtB (sim best desc, best) (sim y desc, y) = false) →
      gl_map_for_description sim desc al abn km = dictGet abn best unmappedS) := by
  rw [gl_map_eq_cases sim desc al abn km hne, hkw]
  constructor
  · intro hlow
    have hfil : ((al.map (fun x => (sim x desc, x))).filter
        (fun p => decide ((0.86 : ℚ) ≤ p.1))) = [] := by
      rw [List.filter_eq_nil_iff]
      intro p hmem
      obtain ⟨a, ha, hae⟩ := List.mem_map.mp hmem
      subst hae
      simpa using not_le.mpr (hlow a ha)
    simp [getCloseMatches1, hfil, best1]
  · intro best hbest hcut hmax
    have hbmem : (sim best desc, best) ∈
        ((al.map (fun x => (sim x desc, x))).filter
          (fun p => decide ((0.86 : ℚ) ≤ p.1))) := by
      refine List.mem_filter.mpr ⟨List.mem_map.mpr ⟨best, hbest, rfl⟩, by simpa using hcut⟩
    obtain ⟨m, hm, hmmem, hmall⟩ := best1_spec (List.ne_nil_of_mem hbmem)
    have hmx : ∃ x ∈ al, m = (sim x desc, x) := by
      obtain ⟨hmap, -⟩ := List.mem_filter.mp hmmem
      obtain ⟨x, hx, hxeq⟩ := List.mem_map.mp hmap
      exact ⟨x, hx, hxeq.symm⟩
    obtain ⟨x, hx, rfl⟩ := hmx
    have h1 : pairLtB (sim x desc, x) (sim best desc, best) = false :=
      hmall _ hbmem
    have h2 : pairLtB (sim best desc, best) (sim x desc, x) = false := hmax x hx
    have hxb : x = best := congrArg Prod.snd (pairLtB_connex h1 h2)
    subst hxb
    simp [getCloseMatches1, hm]

/-- Witness for C5: with exact-match similarity, the description "xyz"
(no keyword rule fires) against the single-entry account list
["abc"] scores 0 < 0.86, so classification returns "Unmapped". -/
theorem gl_classifier_fuzzy_witness :
    gl_map_for_description simExact "xyz".data ["abc".data]
      [("abc".data, "5000".data)] [] = unmappedS :=
  (gl_classifier_fuzzy simExact "xyz".data ["abc".data]
    [("abc".data, "5000".data)] [] (by decide) (by decide)).1 (by
      intro x hx
      rw [List.mem_singleton.mp hx]
      rw [show simExact "abc".data "xyz".data = 0 from if_neg (by decide)]
      norm_num)

/-- C8: the two script variants' GL classification paths agree — for
every similarity measure, description and chart-of-accounts row list,
`gl_map_for_description3` applied to `build_gl_index3`'s output equals
`gl_map_for_description` applied to `build_gl_index`'s output (the two
functions are verbatim duplicates in the source). -/
theorem gl_variants_equivalent (sim : Str → Str → ℚ) (desc : Str)
    (rows : List GLRow) :
    gl_map_for_description3 sim desc (build_gl_index3 rows).1
      (build_gl_index3 rows).2.1 (build_gl_index3 rows).2.2 =
    gl_map_for_description sim desc (build_gl_index rows).1
      (build_gl_index rows).2.1 (build_gl_index rows).2.2 := rfl

/-! ## Line-Item Extractor (`parse_big_geyser`, lines 78-99 of
`parse_invoices3.py`)

Each regex is replaced by an equivalent deterministic scanner; the
determinization arguments (why greedy/lazy backtracking collapses to a
single outcome) are given with each definition. -/

/-- One extracted line item (`{"sku": ..., "description": ...,
"quantity": ...}`). -/
structure LineItem where
  sku : Option Str
  description : Option Str
  quantity : Nat
deriving DecidableEq, Repr

/-- The maximal all-digit suffix of a string. -/
def digitSuffix (s : Str) : Str := (s.reverse.takeWhile isDigit).reverse

/-- The primary line pattern `(?P<sku>\d{3,})\s+(?P<desc>.*?)(?P<qty>\d+)$`
under `re.match`.  Backtracking collapses: `sku` must be the full leading
digit run (a shorter run would put a digit where `\s+` needs whitespace),
`\s+` is the full whitespace run (desc can absorb spaces, so giving
spaces back never rescues a failure), and the lazy `desc` makes `qty`
the maximal digit suffix of the remainder.  `.` does not match a
newline, so a match additionally requires the captured `desc` to be
newline-free. -/
def matchItemLine (raw : Str) : Option (Str × Str × Str) :=
  let sku := raw.takeWhile isDigit
  let rest := raw.dropWhile isDigit
  if sku.length < 3 then none
  else if (rest.takeWhile isSpace).isEmpty then none
  else
    let r := rest.dropWhile isSpace
    let qty := digitSuffix r
    if qty.isEmpty then none
    else
      let desc := r.take (r.length - qty.length)
      if desc.contains '\n' then none else some (sku, desc, qty)

/-- The fallback pattern `(?P<sku>\d{3,})\s+(?P<desc>.+)` under
`re.match`: full leading digit run of length ≥ 3, at least one
whitespace, then at least one character; the greedy `.+` captures up to
the first newline (after a maximal `\s+` the remainder never starts
with a newline). -/
def matchSkuDesc (rest : Str) : Option (Str × Str) :=
  let sku := rest.takeWhile isDigit
  let r1 := rest.dropWhile isDigit
  if sku.length < 3 then none
  else if (r1.takeWhile isSpace).isEmpty then none
  else
    let r2 := r1.dropWhile isSpace
    if r2.isEmpty then none
    else some (sku, r2.takeWhile (· != '\n'))

/-- `int` of a single ASCII digit character. -/
def charDigitVal (c : Char) : Nat := c.toNat - 48

/-- The per-line loop body (lines 86-97): primary pattern, then the
fallback that reads the trailing character as the quantity (defaulting
to 1), drops it, and re-attempts a SKU/description split. -/
def parseItemLine (raw : Str) : LineItem :=
  match matchItemLine raw with
  | some (sku, desc, qty) => ⟨some sku, some (strip desc), natOfDigits qty⟩
  | none =>
    let qty : Nat :=
      match raw.getLast? with
      | some c => if c.isDigit then charDigitVal c else 1
      | none => 1
    let rest := strip raw.dropLast
    match matchSkuDesc rest with
    | some (sku, desc) => ⟨some sku, some (strip desc), qty⟩
    | none => ⟨none, some rest, qty⟩

/-- The whole per-line loop: strip each raw line, skip blank ones,
parse each survivor into exactly one item. -/
def itemsOfLines (lines : List Str) : List LineItem :=
  ((lines.map strip).filter (fun l => !l.isEmpty)).map parseItemLine

/-- Greedy match of the separator `\s*\n` of `re.split` at the head of
a string: consume whitespace as long as the rest still matches, else
require an immediate newline. -/
def sepAt : Str → Option Str
  | [] => none
  | c :: cs =>
    if isSpace c then
      match sepAt cs with
      | some r => some r
      | none => if c = '\n' then some cs else none
    else none

/-- Fuelled worker for `re.split(r'\s*\n', ·)`; fuel is consumed one
unit per input character, so `length s` units always suffice. -/
def splitNLAux : Nat → Str → List Str
  | 0, s => [s]
  | _ + 1, [] => [[]]
  | fuel + 1, c :: cs =>
    match sepAt (c :: cs) with
    | some rest => [] :: splitNLAux fuel rest
    | none =>
      match splitNLAux fuel cs with
      | [] => [[c]]
      | p :: ps => (c :: p) :: ps

/-- `re.split(r'\s*\n', s)` (line 82). -/
def splitNL (s : Str) : List Str := splitNLAux s.length s

/-- The item-region terminator `\s*(?:Cases:|FREE GOODS|\Z)` tested at
one position (the region regex carries `re.I`). -/
def regionTerminatorAt (s : Str) : Bool :=
  let t := dropSpaces s
  startsWithCI "Cases:".data t || startsWithCI "FREE GOODS".data t || t.isEmpty

/-- The lazy group `(.*?)` before the terminator: everything up to the
first position where the terminator matches. -/
def splitAtTerminator : Str → Str
  | [] => []
  | c :: cs => if regionTerminatorAt (c :: cs) then [] else c :: splitAtTerminator cs

/-- The item-table header `ITEM#\s*DESCRIPTION\s*QTY\s*-+\s*` matched at
one position (case-insensitive); returns the text after the header.
Every `\s*` here is followed by a non-whitespace literal or by the lazy
group, so greediness is forced. -/
def matchRegionHeader (s : Str) : Option Str :=
  match dropStartCI? "ITEM#".data s with
  | none => none
  | some s1 =>
    match dropStartCI? "DESCRIPTION".data (dropSpaces s1) with
    | none => none
    | some s2 =>
      match dropStartCI? "QTY".data (dropSpaces s2) with
      | none => none
      | some s3 =>
        let s4 := dropSpaces s3
        if (s4.takeWhile (· == '-')).isEmpty then none
        else some (dropSpaces (s4.dropWhile (· == '-')))

/-- `re.search` scan for the item-table header (line 80). -/
def findRegion : Str → Option Str
  | [] => none
  | c :: cs =>
    match matchRegionHeader (c :: cs) with
    | some rest => some rest
    | none => findRegion cs

/-- The synthetic free-goods item of line 99. -/
def syntheticFreeGoods : LineItem :=
  ⟨none, some "FREE GOODS - NO CHARGE TO CUSTOMER".data, 1⟩

/-- The items produced by the per-line loop over the located item-table
region (empty when no region is found). -/
def regionItems (body : Str) : List LineItem :=
  match findRegion body with
  | none => []
  | some content => itemsOfLines (splitNL (splitAtTerminator content))

/-- Lines 78-99: per-line extraction followed by the free-goods
synthesis when nothing was extracted and the block mentions
"FREE GOODS" (case-insensitively). -/
def extractItems (body : Str) : List LineItem :=
  let items := regionItems body
  if items.isEmpty && containsSubCI "FREE GOODS".data body then
    [syntheticFreeGoods]
  else items

/-! ## Dates (line 71): the pattern
`([A-Z][a-z]{2}\s+[A-Z][a-z]{2}\s+\d{1,2},\s+\d{4})` under `re.search`.
The parsed match is kept as text; `pd.to_datetime` is the external
pandas boundary. -/

/-- `[A-Z][a-z]{2}` at the head. -/
def matchWord3 (s : Str) : Option Str :=
  match s with
  | a :: b :: c :: rest =>
    if a.isUpper && b.isLower && c.isLower then some rest else none
  | _ => none

/-- `\s+` at the head. -/
def matchSpaces1 (s : Str) : Option Str :=
  if (s.takeWhile isSpace).isEmpty then none else some (s.dropWhile isSpace)

/-- The date pattern matched at the head of `s`; returns the length of
the match.  `\d{1,2}` succeeds exactly when the digit run before the
comma has length 1 or 2 (with three digits, both greedy choices leave a
digit where the comma is required), and `\d{4}` needs a run of at least
4 digits, consuming exactly 4. -/
def matchDateAt (s : Str) : Option Nat :=
  match matchWord3 s with
  | none => none
  | some s1 =>
  match matchSpaces1 s1 with
  | none => none
  | some s2 =>
  match matchWord3 s2 with
  | none => none
  | some s3 =>
  match matchSpaces1 s3 with
  | none => none
  | some s4 =>
    let ds := s4.takeWhile isDigit
    if ds.length = 0 || 2 < ds.length then none
    else
      match s4.drop ds.length with
      | ',' :: s5 =>
        (match matchSpaces1 s5 with
        | none => none
        | some s6 =>
          if 4 ≤ (s6.takeWhile isDigit).length then
            some (s.length - (s6.length - 4))
          else none)
      | _ => none

/-- `re.search` scan for the date pattern, returning the matched text. -/
def findDate : Str → Option Str
  | [] => none
  | c :: cs =>
    match matchDateAt (c :: cs) with
    | some n => some ((c :: cs).take n)
    | none => findDate cs

/-! ## Invoice Block Segmenter (`parse_big_geyser`, lines 62-69)

The block pattern is
`Account:\s*(\d+)\s*Invoice#:\s*([0-9A-Z]+)(.*?)(?=Account:\s*\d+\s*Invoice#:|\Z)`
with `re.S`, iterated by `finditer` over the whitespace-flattened text.
Since the pattern starts with a literal and every `\s*`/`\d+`/`[0-9A-Z]+`
boundary is between disjoint character classes, a match attempt at a
position is deterministic; the lazy group extends to the first position
where the lookahead holds, or to the end of the text. -/

/-- `re.sub(r'\s+', ' ', text)` (line 62). -/
def flattenAux : Bool → Str → Str
  | _, [] => []
  | inRun, c :: cs =>
    if isSpace c then
      if inRun then flattenAux true cs else ' ' :: flattenAux true cs
    else c :: flattenAux false cs

def flatten (s : Str) : Str := flattenAux false s

/-- The two captured header fields of one block match. -/
structure AnchorGroups where
  account : Str
  invoiceNo : Str
deriving DecidableEq, Repr

/-- The anchor `Account:\s*(\d+)\s*Invoice#:\s*([0-9A-Z]+)` matched at
the head of `s`; returns the groups and the rest after the (greedy)
invoice-number run. -/
def matchAnchor (s : Str) : Option (AnchorGroups × Str) :=
  match dropStart? "Account:".data s with
  | none => none
  | some s1 =>
    let s2 := dropSpaces s1
    let acct := s2.takeWhile isDigit
    if acct.isEmpty then none
    else
      match dropStart? "Invoice#:".data (dropSpaces (s2.dropWhile isDigit)) with
      | none => none
      | some s5 =>
        let s6 := dropSpaces s5
        let inv := s6.takeWhile isInvChar
        if inv.isEmpty then none
        else some (⟨acct, inv⟩, s6.dropWhile isInvChar)

/-- The lookahead `(?=Account:\s*\d+\s*Invoice#:)` tested at one
position. -/
def lookaheadB (s : Str) : Bool :=
  match dropStart? "Account:".data s with
  | none => false
  | some s1 =>
    let s2 := dropSpaces s1
    !(s2.takeWhile isDigit).isEmpty &&
      (dropStart? "Invoice#:".data (dropSpaces (s2.dropWhile isDigit))).isSome

/-- Leftmost anchor match in `s`: its offset, groups, and the suffix
after its invoice-number group. -/
def findAnchor : Str → Option (Nat × AnchorGroups × Str)
  | [] => none
  | c :: cs =>
    match matchAnchor (c :: cs) with
    | some (g, rest) => some (0, g, rest)
    | none =>
      match findAnchor cs with
      | none => none
      | some (p, g, rest) => some (p + 1, g, rest)

/-- Split at the first position where the lookahead holds: the lazy
third group of the block pattern, and the suffix where the next
`finditer` attempt resumes. -/
def splitAtLookahead : Str → Str × Str
  | [] => ([], [])
  | c :: cs =>
    if lookaheadB (c :: cs) then ([], c :: cs)
    else
      let pr := splitAtLookahead cs
      (c :: pr.1, pr.2)

/-- One `finditer` block match with its span. -/
structure RawSeg where
  startPos : Nat
  endPos : Nat
  account : Str
  invoiceNo : Str
  body : Str
deriving DecidableEq, Repr

/-- `finditer` of the full block pattern; fuel is one unit per match
(every match consumes at least one character, so `length s + 1` units
always suffice). -/
def segmentAux : Nat → Nat → Str → List RawSeg
  | 0, _, _ => []
  | fuel + 1, base, s =>
    match findAnchor s with
    | none => []
    | some (p, g, rest) =>
      let consumed := s.length - rest.length
      let body := (splitAtLookahead rest).1
      ⟨base + p, base + consumed + body.length, g.account, g.invoiceNo, body⟩ ::
        segmentAux fuel (base + consumed + body.length) (splitAtLookahead rest).2

/-- The segmenter: all block matches of the flattened text, with
spans. -/
def segment (s : Str) : List RawSeg := segmentAux (s.length + 1) 0 s

/-- One parsed invoice block (the dict built on line 100).
`invoice_date` holds the text matched by the date search; its
conversion by `pd.to_datetime` is the external pandas boundary. -/
structure InvoiceBlock where
  account : Str
  invoice_number : Str
  invoice_date : Option Str
  items : List LineItem
deriving DecidableEq, Repr

/-- `parse_big_geyser` from `parse_invoices3.py` (lines 60-102):
flatten, segment into blocks, and extract the date and line items of
each block. -/
def parse_big_geyser (text : Str) : List InvoiceBlock :=
  (segment (flatten text)).map (fun seg =>
    ⟨seg.account, seg.invoiceNo, findDate seg.body, extractItems seg.body⟩)

/-- The null-placeholder item substituted by the record-assembly loop
(`{"sku": None, "description": None, "quantity": 1}`, line 175 of
`parse_invoices3.py`). -/
def nullPlaceholder : LineItem := ⟨none, none, 1⟩

/-! ## Claims about the Line-Item Extractor -/

/-- A string strips to nothing exactly when it is all whitespace. -/
theorem strip_eq_nil_iff (l : Str) : strip l = [] ↔ ∀ c ∈ l, isSpace c = true := by
  constructor
  · intro h c hc
    have h1 : (l.dropWhile isSpace).reverse.dropWhile isSpace = [] := by
      simpa [strip, List.reverse_eq_nil_iff] using h
    have h2 : ∀ x ∈ l.dropWhile isSpace, isSpace x = true := by
      intro x hx
      exact List.dropWhile_eq_nil_iff.mp h1 x (List.mem_reverse.mpr hx)
    rw [← List.takeWhile_append_dropWhile (p := isSpace) (l := l)] at hc
    rcases List.mem_append.mp hc with h3 | h3
    · exact List.mem_takeWhile_imp h3
    · exact h2 c h3
  · intro h
    have h1 : l.dropWhile isSpace = [] := List.dropWhile_eq_nil_iff.mpr h
    simp [strip, h1]

/-- The per-line loop emits exactly one item per non-blank raw line. -/
theorem itemsOfLines_length (lines : List Str) :
    (itemsOfLines lines).length =
      lines.countP (fun l => l.any (fun c => !isSpace c)) := by
  unfold itemsOfLines
  rw [List.length_map, ← List.countP_eq_length_filter, List.countP_map]
  apply List.countP_congr
  intro l _
  rcases h : l.any (fun c => !isSpace c) with hfalse | htrue
  · have : ∀ c ∈ l, isSpace c = true := by
      intro c hc
      have := List.any_eq_false.mp h c hc
      simpa using this
    simp [Function.comp, List.isEmpty_iff, (strip_eq_nil_iff l).mpr this]
  · obtain ⟨c, hc, hcs⟩ := List.any_eq_true.mp h
    have : ¬ strip l = [] := fun hs => by
      have := (strip_eq_nil_iff l).mp hs c hc
      simp [this] at hcs
    simp [Function.comp, List.isEmpty_iff, this]

/-- C4: for every located item-table region, the Line-Item Extractor
emits exactly one line item per non-blank line of the region — the
fallback branch is total, so no non-blank line is dropped. -/
theorem extractor_no_line_dropped (body content : Str)
    (h : findRegion body = some content) :
    (regionItems body).length =
      (splitNL (splitAtTerminator content)).countP
        (fun l => l.any (fun c => !isSpace c)) := by
  unfold regionItems
  rw [h]
  exact itemsOfLines_length _

/-- Witness for C4: a one-line region with one non-blank line yields
exactly one item. -/
theorem extractor_no_line_dropped_witness :
    (regionItems "ITEM# DESCRIPTION QTY --- 4501 Widget 3".data).length =
      (splitNL (splitAtTerminator "4501 Widget 3".data)).countP
        (fun l => l.any (fun c => !isSpace c)) :=
  extractor_no_line_dropped "ITEM# DESCRIPTION QTY --- 4501 Widget 3".data
    "4501 Widget 3".data (by decide)

/-- C10: the synthetic free-goods item is emitted exactly when the
per-line extraction produced zero items and the block mentions
"FREE GOODS" case-insensitively; the trigger is the absence of
extracted items (which also covers a located region with only blank
lines), not the absence of the region. -/
theorem free_goods_synthesis (body : Str) :
    (regionItems body = [] ∧ containsSubCI "FREE GOODS".data body = true →
        extractItems body = [syntheticFreeGoods])
  ∧ (¬ (regionItems body = [] ∧ containsSubCI "FREE GOODS".data body = true) →
        extractItems body = regionItems body) := by
  constructor
  · rintro ⟨h1, h2⟩
    simp [extractItems, h1, h2]
  · intro h
    by_cases h1 : regionItems body = []
    · have h2 : containsSubCI "FREE GOODS".data body = false := by
        rcases hx : containsSubCI "FREE GOODS".data body with h' | h'
        · rfl
        · exact absurd ⟨h1, hx⟩ h
      simp [extractItems, h1, h2]
    · have : (regionItems body).isEmpty = false := by
        rcases hx : (regionItems body).isEmpty with h' | h'
        · rfl
        · exact absurd (List.isEmpty_iff.mp hx) h1
      simp [extractItems, this]

/-- Witness for C10: a block whose item-table region is found but holds
only blank content, with a free-goods marker, yields exactly the
synthetic item. -/
theorem free_goods_synthesis_witness :
    (findRegion "ITEM# DESCRIPTION QTY --- FREE GOODS".data).isSome = true ∧
    extractItems "ITEM# DESCRIPTION QTY --- FREE GOODS".data = [syntheticFreeGoods] :=
  ⟨by decide,
   (free_goods_synthesis "ITEM# DESCRIPTION QTY --- FREE GOODS".data).1 (by decide)⟩

/-- Counterexample to C1 as stated: the primary line pattern parses a
trailing digit run of "0" as the quantity, so an extracted line item
can carry quantity 0 (never absent, but not ≥ 1). -/
theorem extractor_quantity_zero_cex :
    ∃ b ∈ parse_big_geyser
        ("Account: 1 Invoice#: A ITEM# DESCRIPTION QTY --- 4501 Widget 0".data),
      ∃ it ∈ b.items, it.quantity = 0 := by decide

/-- C1 amended: the extractor's quantity is never absent; it is the
numeric value of the parsed trailing digits when a quantity is parsed
(primary pattern, or the fallback's trailing digit character) — which
is 0 when those digits denote zero — and defaults to 1 when the line
ends in no digit or is empty; the synthetic free-goods item and the
null placeholder both carry quantity 1. -/
theorem item_quantity_amended (raw : Str) :
    (raw.getLast? = none → (parseItemLine raw).quantity = 1)
  ∧ (∀ c, matchItemLine raw = none → raw.getLast? = some c → c.isDigit = false →
      (parseItemLine raw).quantity = 1)
  ∧ (∀ c, matchItemLine raw = none → raw.getLast? = some c → c.isDigit = true →
      (parseItemLine raw).quantity = charDigitVal c)
  ∧ (∀ s d q, matchItemLine raw = some (s, d, q) →
      (parseItemLine raw).quantity = natOfDigits q)
  ∧ syntheticFreeGoods.quantity = 1 ∧ nullPlaceholder.quantity = 1 := by
  refine ⟨?_, ?_, ?_, ?_, rfl, rfl⟩
  · intro hlast
    have hraw : raw = [] := by
      cases raw with
      | nil => rfl
      | cons a l => simp [List.getLast?_concat] at hlast
    subst hraw
    rfl
  · intro c hm hlast hdig
    simp only [parseItemLine, hm, hlast, hdig]
    split <;> rfl
  · intro c hm hlast hdig
    simp only [parseItemLine, hm, hlast, hdig, if_true]
    split <;> rfl
  · intro s d q hm
    simp [parseItemLine, hm]

/-- Witness for the amended C1: a line with no trailing digit defaults
to quantity 1, and the line "4501 Widget 0" parses to quantity 0 (the
numeric value of its trailing digit run). -/
theorem item_quantity_amended_witness :
    (parseItemLine "Promo".data).quantity = 1 ∧
    (parseItemLine "4501 Widget 0".data).quantity = natOfDigits "0".data :=
  ⟨(item_quantity_amended "Promo".data).2.1 'o' (by decide) (by decide) (by decide),
   (item_quantity_amended "4501 Widget 0".data).2.2.2.1 "4501".data "Widget ".data
     "0".data (by decide)⟩

/-! ## Claims about the Invoice Block Segmenter -/

/-- One output row: the dict literal of lines 179-201, with its Python
floats (always exact zeros here) as rationals. -/
structure OutputRow where
  tranId : Str
  postingPeriodRef : Option Str
  vendorRef : Str
  tranDate : Option Str
  payableAccountRef : Option Str
  termsRef : Str
  memo : Option Str
  itemRef : Option Str
  quantity : Nat
  serialNumbers : Option Str
  unitsRef : Option Str
  rate : ℚ
  amount : ℚ
  itemMemo : Option Str
  departmentRef : Option Str
  classRef : Str
  locationRef : Option Str
  customerRef : Option Str
  isBillable : Bool
  taxCodeRef : Option Str
  taxCodeAmount : ℚ
deriving DecidableEq, Repr

/-- The inner loop of `main` for one invoice: substitute the null
placeholder when the block has no items (`inv["items"] or [...]`),
then build one row per item.  Python truthiness is modelled pointwise:
`it.get("quantity") or 1` coerces quantity 0 to 1, and
`"CASE" if it.get("sku") else None` treats an absent or empty SKU as
falsy. -/
def rowsForInvoice {α : Type} (sim : Str → Str → ℚ)
    (toDT : Str → Option α) (fmtMon fmtMDY : α → Str)
    (vendor terms : Str) (al : List Str) (abn km : List (Str × Str))
    (inv : InvoiceBlock) : List OutputRow :=
  let invDate : Option α := inv.invoice_date.bind toDT
  let items := if inv.items.isEmpty then [nullPlaceholder] else inv.items
  items.map (fun it =>
    let desc := it.description
    let qty : Nat := if it.quantity = 0 then 1 else it.quantity
    let rate : ℚ := 0
    let amt : ℚ := rate * (qty : ℚ)
    let gl_code := gl_map_for_description sim (desc.getD []) al abn km
    { tranId := inv.invoice_number
      postingPeriodRef := invDate.map fmtMon
      vendorRef := vendor
      tranDate := invDate.map fmtMDY
      payableAccountRef := none
      termsRef := terms
      memo := none
      itemRef := it.sku
      quantity := qty
      serialNumbers := none
      unitsRef := if (it.sku.getD []).isEmpty then none else some "CASE".data
      rate := rate
      amount := amt
      itemMemo := desc
      departmentRef := none
      classRef := gl_code
      locationRef := none
      customerRef := none
      isBillable := false
      taxCodeRef := none
      taxCodeAmount := 0 })

/-- One cell of the written table. -/
inductive Cell where
  | null : Cell
  | strVal : Str → Cell
  | natVal : Nat → Cell
  | ratVal : ℚ → Cell
  | boolVal : Bool → Cell
deriving DecidableEq, Repr

/-- An optional string as a cell. -/
def optCell : Option Str → Cell
  | some s => .strVal s
  | none => .null

/-- The cell a row shows under one column name: the dict lookup behind
`pd.DataFrame(rows, columns=required_headers)`.  Required headers
beyond the 21 core fields were set to `None` by the `setdefault` loop
(lines 202-203), so they project to null. -/
def rowCell (r : OutputRow) (h : Str) : Cell :=
  if h = "tranId".data then .strVal r.tranId
  else if h = "postingPeriodRef".data then optCell r.postingPeriodRef
  else if h = "vendorRef".data then .strVal r.vendorRef
  else if h = "tranDate".data then optCell r.tranDate
  else if h = "payableAccountRef".data then optCell r.payableAccountRef
  else if h = "termsRef".data then .strVal r.termsRef
  else if h = "memo".data then optCell r.memo
  else if h = "purchaseItemline_itemRef".data then optCell r.itemRef
  else if h = "purchaseItemline_quantity".data then .natVal r.quantity
  else if h = "purchaseItemline_serialNumbers".data then optCell r.serialNumbers
  else if h = "purchaseitemline_unitsRef".data then optCell r.unitsRef
  else if h = "purchaseItemLine_rate".data then .ratVal r.rate
  else if h = "purchaseItemLine_amount".data then .ratVal r.amount
  else if h = "purchaseItemLine_memo".data then optCell r.itemMemo
  else if h = "purchaseItemLine_departmentRef".data then optCell r.departmentRef
  else if h = "purchaseItemLine_classRef".data then .strVal r.classRef
  else if h = "purchaseItemLine_locationRef".data then optCell r.locationRef
  else if h = "purchaseItemLine_customerRef".data then optCell r.customerRef
  else if h = "purchaseItemLine_isBillable".data then .boolVal r.isBillable
  else if h = "purchaseItemLine_taxCodeRef".data then optCell r.taxCodeRef
  else if h = "purchaseItemLine_taxCodeAmount".data then .ratVal r.taxCodeAmount
  else .null

/-- Column projection of one row onto the required headers. -/
def projectRow (headers : List Str) (r : OutputRow) : List Cell :=
  headers.map (rowCell r)

/-- The whole pipeline downstream of text extraction: `main`'s file
loop over the already-extracted page texts (one string per PDF, in
directory-enumeration order; empty texts are skipped, lines 169-171),
parsing, row assembly, and column projection. -/
def runPipeline {α : Type} (sim : Str → Str → ℚ)
    (toDT : Str → Option α) (fmtMon fmtMDY : α → Str)
    (texts : List Str) (requiredHeaders : List Str) (glRows : List GLRow)
    (vendor terms : Str) : List (List Cell) :=
  let idx := build_gl_index glRows
  ((texts.filter (fun t => !t.isEmpty)).flatMap (fun t =>
    (parse_big_geyser t).flatMap
      (rowsForInvoice sim toDT fmtMon fmtMDY vendor terms
        idx.1 idx.2.1 idx.2.2))).map (projectRow requiredHeaders)

/-- C6: the Record Assembler emits exactly one row per line item, and a
block with zero line items yields exactly one row built from the null
placeholder (absent SKU and description, quantity 1), so every invoice
block contributes at least one row. -/
theorem assembler_rows {α : Type} (sim : Str → Str → ℚ)
    (toDT : Str → Option α) (fmtMon fmtMDY : α → Str)
    (vendor terms : Str) (al : List Str) (abn km : List (Str × Str))
    (inv : InvoiceBlock) :
    (rowsForInvoice sim toDT fmtMon fmtMDY vendor terms al abn km inv).length =
      max 1 inv.items.length
  ∧ (inv.items = [] →
      rowsForInvoice sim toDT fmtMon fmtMDY vendor terms al abn km inv =
        [{ tranId := inv.invoice_number
           postingPeriodRef := (inv.invoice_date.bind toDT).map fmtMon
           vendorRef := vendor
           tranDate := (inv.invoice_date.bind toDT).map fmtMDY
           payableAccountRef := none
           termsRef := terms
           memo := none
           itemRef := none
           quantity := 1
           serialNumbers := none
           unitsRef := none
           rate := 0
           amount := 0
           itemMemo := none
           departmentRef := none
           classRef := unmappedS
           locationRef := none
           customerRef := none
           isBillable := false
           taxCodeRef := none
           taxCodeAmount := 0 }]) := by
  constructor
  · cases hi : inv.items with
    | nil => simp [rowsForInvoice, hi]
    | cons it rest =>
      simp only [rowsForInvoice, hi, List.isEmpty_cons, Bool.false_eq_true, if_false,
        List.length_map, List.length_cons]
      omega
  · intro h
    simp [rowsForInvoice, h, nullPlaceholder, gl_map_for_description, unmappedS]

/-- Witness for C6 at a concrete zero-item invoice block. -/
theorem assembler_rows_witness :
    (rowsForInvoice simZero (fun _ => (none : Option Unit)) (fun _ => [])
        (fun _ => []) "V".data "T".data [] [] []
        ⟨"1".data, "A1".data, none, []⟩).length =
      max 1 ([] : List LineItem).length ∧
    rowsForInvoice simZero (fun _ => (none : Option Unit)) (fun _ => [])
        (fun _ => []) "V".data "T".data [] [] []
        ⟨"1".data, "A1".data, none, []⟩ =
      [{ tranId := "A1".data
         postingPeriodRef := none
         vendorRef := "V".data
         tranDate := none
         payableAccountRef := none
         termsRef := "T".data
         memo := none
         itemRef := none
         quantity := 1
         serialNumbers := none
         unitsRef := none
         rate := 0
         amount := 0
         itemMemo := none
         departmentRef := none
         classRef := unmappedS
         locationRef := none
         customerRef := none
         isBillable := false
         taxCodeRef := none
         taxCodeAmount := 0 }] :=
  ⟨(assembler_rows simZero (fun _ => (none : Option Unit)) (fun _ => [])
      (fun _ => []) "V".data "T".data [] [] [] ⟨"1".data, "A1".data, none, []⟩).1,
   (assembler_rows simZero (fun _ => (none : Option Unit)) (fun _ => [])
      (fun _ => []) "V".data "T".data [] [] [] ⟨"1".data, "A1".data, none, []⟩).2 rfl⟩

/-- C9: the pipeline is deterministic — two runs over equal extracted
texts (in the same enumeration order), equal required-headers lists and
equal chart-of-accounts rows, with the same similarity measure, date
capabilities and vendor/terms constants, produce equal row tables in
equal order. -/
theorem pipeline_deterministic {α : Type} (sim : Str → Str → ℚ)
    (toDT : Str → Option α) (fmtMon fmtMDY : α → Str)
    (texts₁ texts₂ hdrs₁ hdrs₂ : List Str) (gl₁ gl₂ : List GLRow)
    (vendor terms : Str)
    (ht : texts₁ = texts₂) (hh : hdrs₁ = hdrs₂) (hg : gl₁ = gl₂) :
    runPipeline sim toDT fmtMon fmtMDY texts₁ hdrs₁ gl₁ vendor terms =
    runPipeline sim toDT fmtMon fmtMDY texts₂ hdrs₂ gl₂ vendor terms := by
  rw [ht, hh, hg]

/-- Witness for C9 at one concrete input set. -/
theorem pipeline_deterministic_witness :
    runPipeline simZero (fun _ => (none : Option Unit)) (fun _ => [])
      (fun _ => []) ["Account: 1 Invoice#: A FREE GOODS".data]
      ["tranId".data] [] "V".data "T".data =
    runPipeline simZero (fun _ => (none : Option Unit)) (fun _ => [])
      (fun _ => []) ["Account: 1 Invoice#: A FREE GOODS".data]
      ["tranId".data] [] "V".data "T".data :=
  pipeline_deterministic simZero (fun _ => (none : Option Unit)) (fun _ => [])
    (fun _ => []) _ _ _ _ _ _ "V".data "T".data rfl rfl rfl

end Invoice
